import Mathlib

/-!
Shallow embedding of the Slack project-management bot (`bot.py`) and proofs
about its tool executor, content source, session store and orchestration loop.

Modelling conventions:
* File system state is an association list from resolved path segments to file
  content; `PROJECT_ROOT` is the implicit root of every relative path.
* Python `str.replace(find, repl, 1)` and the `in` substring test are modelled
  on `List Char` (`replaceFirst`, `containsSub`).
* `pathlib.Path.suffix`, `Path` name extraction and OS-level resolution of
  `..` segments (as performed by `exists()` / `read_text()` / `write_text()`)
  are modelled by `pySuffix`, `pathName` and `resolveSegs`.
* The static configuration (`PROJECTS`, `CHANNEL_ACCESS`) and the results of
  directory globbing and `git` subprocesses are passed as explicit
  environment values, since they are external inputs of the program.
-/

/-- Python substring test `f in s`, on character lists. -/
def containsSub : List Char → List Char → Bool
  | [], f => f.isPrefixOf []
  | c :: rest, f => f.isPrefixOf (c :: rest) || containsSub rest f

/-- Python `s.replace(f, r, 1)`: replace the first occurrence of `f` in `s`
by `r` (inserting `r` at the front when `f` is empty), on character lists. -/
def replaceFirst : List Char → List Char → List Char → List Char
  | [], f, r => if f.isPrefixOf [] then r else []
  | c :: rest, f, r =>
    if f.isPrefixOf (c :: rest) then r ++ (c :: rest).drop f.length
    else c :: replaceFirst rest f r

/-- Substring test lifted to `String` (Python `find_text in content`). -/
def containsStr (s f : String) : Bool := containsSub s.data f.data

/-- First-occurrence replacement lifted to `String`. -/
def replaceFirstStr (s f r : String) : String := String.mk (replaceFirst s.data f.data r.data)

/-- Python `s.split(sep)` for a single-character separator, on character
lists (`"".split(sep)` is `[""]`). -/
def splitOnChar (sep : Char) : List Char → List (List Char)
  | [] => [[]]
  | c :: rest =>
    let r := splitOnChar sep rest
    if c == sep then [] :: r
    else
      match r with
      | [] => [[c]]
      | h :: t => (c :: h) :: t

/-- Python `s.split(sep)` on `String` for a single-character separator. -/
def pySplit (s : String) (sep : Char) : List String :=
  (splitOnChar sep s.data).map String.mk

/-- The file system visible below `PROJECT_ROOT`: resolved path segments
mapped to file content. -/
abbrev FS := List (List String × String)

/-- Look up a file by its resolved segments (models `Path.exists` /
`Path.read_text` on an existing file). -/
def fsGet (fs : FS) (key : List String) : Option String :=
  (fs.find? (fun e => e.1 == key)).map (fun e => e.2)

/-- Overwrite an existing file's content (models `Path.write_text` on the
path that was just read). -/
def fsSet (fs : FS) (key : List String) (v : String) : FS :=
  fs.map (fun e => if e.1 == key then (e.1, v) else e)

/-- One step of OS-level path resolution: empty and `.` segments are
dropped, `..` pops the previous segment. -/
def resolveStep (acc : List String) (seg : String) : List String :=
  if seg = "" ∨ seg = "." then acc
  else if seg = ".." then
    match acc.getLast? with
    | none => [".."]
    | some l => if l = ".." then acc ++ [".."] else acc.dropLast
  else acc ++ [seg]

/-- Resolve a relative path (as the OS does when the file is accessed):
split on `/` and process `.` and `..` segments. -/
def resolveSegs (p : String) : List String :=
  (pySplit p '/').foldl resolveStep []

/-- The `name` of `PROJECT_ROOT / p` as `pathlib` computes it: the last
non-empty, non-`.` component of `p`. -/
def pathName (p : String) : String :=
  (((pySplit p '/').filter (fun s => s ≠ "" ∧ s ≠ ".")).getLast?).getD ""

/-- `pathlib.PurePath.suffix` of a file name: the part from the last dot,
provided that dot is neither the first nor the last character. -/
def pySuffix (n : String) : String :=
  let cs := n.data
  match cs.reverse.findIdx? (fun c => c == '.') with
  | none => ""
  | some j =>
    let i := cs.length - 1 - j
    if 0 < i ∧ i < cs.length - 1 then String.mk (cs.drop i) else ""

/-- Python `file_path.split("/")[0] if "/" in file_path else None`:
the first `/`-separated segment used by the access check. -/
def topLevelDir (p : String) : Option String :=
  if p.data.contains '/' then some ((pySplit p '/').headD "") else none

/-- Render the Python value `file_dir` inside the denial f-string
(`None` prints as the string `None`). -/
def showOptDir : Option String → String
  | none => "None"
  | some d => d

/-- Denial message of `edit_file` (its first f-string). -/
def accessDeniedMsg (fd : Option String) (dirs : List String) : String :=
  "Error: You don\x27t have access to edit files in \x27" ++ showOptDir fd ++
    "\x27. This channel can only access: " ++ String.intercalate ", " dirs

/-- Missing-file message of `edit_file`. -/
def fileNotFoundMsg (p : String) : String :=
  "Error: File \x27" ++ p ++ "\x27 does not exist."

/-- Non-markdown message of `edit_file`. -/
def mdOnlyMsg : String := "Error: Can only edit markdown (.md) files."

/-- Missing-text message of `edit_file`. -/
def textNotFoundMsg (p : String) : String :=
  "Error: Could not find the specified text in \x27" ++ p ++ "\x27. Make sure it matches exactly."

/-- Success message of `edit_file`. -/
def updatedMsg (p : String) : String :=
  "Updated \x27" ++ p ++ "\x27: replaced text successfully."

/-- The access check of `edit_file`: under a restricted scope the first
`/`-separated segment must be one of the allowed directories (a path with
no `/` has `file_dir = None`, which is never in the list). -/
def deniedFor (allowed : Option (List String)) (p : String) : Bool :=
  match allowed with
  | none => false
  | some dirs =>
    match topLevelDir p with
    | none => true
    | some d => decide (d ∉ dirs)

/-- Body of `edit_file` after the access check: existence, extension and
substring checks, then first-occurrence replacement and write-back. -/
def editBody (file_path find_text replace_text : String) (fs : FS) : String × FS :=
  match fsGet fs (resolveSegs file_path) with
  | none => (fileNotFoundMsg file_path, fs)
  | some content =>
    if pySuffix (pathName file_path) ≠ ".md" then (mdOnlyMsg, fs)
    else if containsStr content find_text = false then (textNotFoundMsg file_path, fs)
    else (updatedMsg file_path,
      fsSet fs (resolveSegs file_path) (replaceFirstStr content find_text replace_text))

/-- `edit_file(file_path, find_text, replace_text)` from `bot.py`: access
check on the top-level directory, then existence, `.md` extension and
substring checks, then replace the first occurrence and write back. -/
def edit_file (file_path find_text replace_text : String)
    (allowed : Option (List String)) (fs : FS) : String × FS :=
  match allowed with
  | some dirs =>
    if deniedFor (some dirs) file_path then
      (accessDeniedMsg (topLevelDir file_path) dirs, fs)
    else editBody file_path find_text replace_text fs
  | none => editBody file_path find_text replace_text fs

/-- Results of the `git` subprocess invocations made by
`get_recent_updates` for a given day count, plus an optional unexpected
exception (message of the Python exception caught by its `except`). -/
structure GitData where
  logRc : Nat
  logOut : String
  logErr : String
  countRc : Nat
  countOut : String
  filesOut : String
  exn : Option String

/-- Python `str.isspace` characters relevant to `strip()`. -/
def pyIsSpace (c : Char) : Bool :=
  c == ' ' || c == '\t' || c == '\n' || c == '\x0d' || c == '\x0b' || c == '\x0c'

/-- Python `s.strip()`: drop leading and trailing whitespace. -/
def pyStrip (s : String) : String :=
  String.mk (((s.data.dropWhile pyIsSpace).reverse.dropWhile pyIsSpace).reverse)

/-- `get_recent_updates(days)` from `bot.py`: error text when `git log`
fails, a no-commits message when its output is empty, otherwise a summary
with commit count, distinct changed files and the raw log; any unexpected
exception is rendered as text. -/
def get_recent_updates (days : Nat) (git : GitData) : String :=
  match git.exn with
  | some e => "Error getting git history: " ++ e
  | none =>
    if git.logRc ≠ 0 then "Error running git log: " ++ git.logErr
    else if pyStrip git.logOut = "" then
      "No commits found in the last " ++ toString days ++ " days."
    else
      let commit_count := if git.countRc = 0 then pyStrip git.countOut else "unknown"
      let unique_files := ((pySplit (pyStrip git.filesOut) '\n').filter (fun f => f ≠ "")).dedup
      "Git history for the last " ++ toString days ++ " days:\n\nTotal commits: " ++
        commit_count ++ "\nFiles modified: " ++ toString unique_files.length ++
        "\n\nCommits:\n" ++ git.logOut

/-- A tool invocation requested by the model, with its arguments already
keyed by the tool name it targets (the `tool_input` dict of `bot.py`). -/
inductive ToolCall
  | editFile (file_path find_text replace_text : String)
  | recentUpdates (days : Option Nat)
  | unknownTool (name : String)
deriving DecidableEq

/-- `execute_tool` from `bot.py`: dispatch on the tool name; an unknown
name yields a textual result instead of failing the turn. `days` defaults
to 7 via `tool_input.get("days", 7)`. -/
def execute_tool (call : ToolCall) (allowed : Option (List String))
    (git : Nat → GitData) (fs : FS) : String × FS :=
  match call with
  | .editFile fp ft rt => edit_file fp ft rt allowed fs
  | .recentUpdates d => (get_recent_updates (d.getD 7) (git (d.getD 7)), fs)
  | .unknownTool n => ("Unknown tool: " ++ n, fs)

/-- A root-level markdown file found by `PROJECT_ROOT.glob("*.md")`:
its name and the result of `read_text` (error message if reading fails). -/
structure RootFile where
  fname : String
  res : Except String String

/-- A markdown file found below a project directory: its path relative to
`PROJECT_ROOT`, its bare name, and the result of `read_text`. -/
structure ProjFile where
  rel : String
  fname : String
  res : Except String String

/-- One entry of the `PROJECTS` configuration together with what the file
system holds for it: directory name, display name, whether the directory
exists, and the markdown files found by `glob("**/*.md")`. -/
structure ProjDir where
  dirName : String
  projName : String
  dirExists : Bool
  files : List ProjFile

/-- The content environment of `get_all_markdown_files`: the root-level
glob results and the configured project directories. -/
structure DocEnv where
  rootFiles : List RootFile
  projects : List ProjDir

/-- Section rendered for a root-level file (per-file read errors degrade
to an inline placeholder). -/
def renderRoot (f : RootFile) : String :=
  match f.res with
  | .ok c => "## File: " ++ f.fname ++ "\n\n" ++ c
  | .error e => "## File: " ++ f.fname ++ "\n\nError reading file: " ++ e

/-- Section rendered for a project file; on a read error the code falls
back to the bare file name (the relative path is computed after the read). -/
def renderProj (p : ProjDir) (f : ProjFile) : String :=
  match f.res with
  | .ok c => "## File: " ++ f.rel ++ " (" ++ p.projName ++ ")\n\n" ++ c
  | .error e => "## File: " ++ f.fname ++ "\n\nError reading file: " ++ e

/-- The list of sections accumulated by `get_all_markdown_files`: root
files (excluding `CLAUDE.md`) only under full access, then the files of
each allowed, existing project directory. -/
def sectionsOf (allowed : Option (List String)) (env : DocEnv) : List String :=
  let rootSecs : List String :=
    match allowed with
    | none => (env.rootFiles.filter (fun f => f.fname ≠ "CLAUDE.md")).map renderRoot
    | some _ => []
  let projSecs : List String :=
    (env.projects.map (fun p =>
      match allowed with
      | some dirs =>
        if p.dirName ∈ dirs then (if p.dirExists then p.files.map (renderProj p) else []) else []
      | none => if p.dirExists then p.files.map (renderProj p) else [])).flatten
  rootSecs ++ projSecs

/-- `get_all_markdown_files(allowed_dirs)` from `bot.py`: join the
rendered sections with the separator, or the sentinel when none exist. -/
def get_all_markdown_files (allowed : Option (List String)) (env : DocEnv) : String :=
  if (sectionsOf allowed env).isEmpty then "No project files found."
  else String.intercalate "\n\n---\n\n" (sectionsOf allowed env)

/-- A content block of a model response: plain text or a tool-use request
with its correlation id. -/
inductive ContentBlock
  | text (s : String)
  | toolUse (id : String) (call : ToolCall)
deriving DecidableEq

/-- A tool result keyed by the correlation id of its request. -/
structure ToolResult where
  tool_use_id : String
  content : String
deriving DecidableEq

/-- Message content: plain text, raw response blocks, or tool results. -/
inductive MsgContent
  | text (s : String)
  | blocks (bs : List ContentBlock)
  | results (rs : List ToolResult)
deriving DecidableEq

/-- A role-tagged message of the conversation. -/
structure Message where
  role : String
  content : MsgContent
deriving DecidableEq

/-- A session of the `SESSIONS` store: message history and the timestamp
of the last access. -/
structure Session where
  messages : List Message
  last_activity : Nat
deriving DecidableEq

/-- `SESSION_TIMEOUT = 30 * 60` seconds. -/
def SESSION_TIMEOUT : Nat := 30 * 60

/-- The `SESSIONS` dict: channel id to session. -/
abbrev Store := String → Option Session

/-- Update one channel's session (dict assignment). -/
def storeSet (st : Store) (k : String) (s : Session) : Store :=
  fun q => if q = k then some s else st q

/-- The expiry sweep of `get_session`: delete every session whose
inactivity strictly exceeds `SESSION_TIMEOUT`. -/
def sweepExpired (st : Store) (now : Nat) : Store :=
  fun q =>
    match st q with
    | none => none
    | some s => if SESSION_TIMEOUT < now - s.last_activity then none else some s

/-- `get_session(channel_id)` from `bot.py`: sweep all expired sessions,
then return a fresh empty session when the channel is absent or expired,
otherwise the existing session with its `last_activity` refreshed. -/
def get_session (st : Store) (channel_id : String) (now : Nat) : Session × Store :=
  let st1 := sweepExpired st now
  match st1 channel_id with
  | none =>
    let fresh : Session := { messages := [], last_activity := now }
    (fresh, storeSet st1 channel_id fresh)
  | some s =>
    if SESSION_TIMEOUT < now - s.last_activity then
      let fresh : Session := { messages := [], last_activity := now }
      (fresh, storeSet st1 channel_id fresh)
    else
      let srefreshed : Session := { s with last_activity := now }
      (srefreshed, storeSet st1 channel_id srefreshed)

/-- `get_allowed_dirs(channel_id)`: look the channel up in the
`CHANNEL_ACCESS` configuration, `none` meaning full access. -/
def get_allowed_dirs (access : List (String × List String)) (channel_id : String) :
    Option (List String) :=
  ((access.find? (fun e => e.1 == channel_id)).map (fun e => e.2))

/-- The fixed system instructions of `bot.py` (`SYSTEM_PROMPT`). -/
def SYSTEM_PROMPT : String :=
  "You are a helpful assistant for project management and documentation.\n\n## Available Skills\n\n1. **Answer Questions** - Search and summarize information from project files\n2. **Edit Files** - Use the edit_file tool to make changes to markdown files. Find the exact text you want to change, and replace it with new text.\n\n## Guidelines\n- Be concise and actionable\n- Reference specific documents when available\n- If you don\x27t have information, say so clearly\n- Use the edit_file tool when asked to update, add, or change anything in project files\n- Always confirm what you changed after using a tool\n\n## Memory\nYou have conversation memory within each channel/DM:\n- 30 minute window: Memory resets after 30 minutes of inactivity\n- 20 message limit: Keeps the last 20 exchanges before older messages are forgotten\n- Each channel/DM has its own separate memory\n\n## Weekly Update Command\nWhen user asks for \"weekly update\", \"recent updates\", \"what\x27s new\", or similar:\n1. Use the get_recent_updates tool to fetch git history from the last 7 days\n2. Summarize the changes by project/area and highlight key updates\n\n## Slack Formatting\nUse Slack mrkdwn format, NOT standard markdown:\n- Bold: *text* (not **text**)\n- Italic: _text_\n- Strikethrough: ~text~\n- Code: `text` or ```code block```\n- Lists: Use * or - with plain text\n- No headers (# doesn\x27t work) - use *Bold* for emphasis instead\n- Links: <url|text>\n\nCurrent project files will be provided as context."

/-- The system argument of every `claude.messages.create` call: the fixed
instructions plus the current project files appendix. -/
def systemWithContext (project_context : String) : String :=
  SYSTEM_PROMPT ++ "\n\nCurrent project files:\n" ++ project_context

/-- Context message of the first turn of a session: the full document
blob plus the user request. -/
def firstTurnContext (project_context user_message : String) : String :=
  "Here are the current project files:\n\n" ++ project_context ++
    "\n\n---\n\nUser request: " ++ user_message

/-- Context message of later turns: a placeholder plus the user request. -/
def laterTurnContext (user_message : String) : String :=
  "(Project files still available from earlier in conversation)\n\nUser request: " ++ user_message

/-- Fallback reply when the final response has no text block. -/
def fallbackReply : String := "I completed the action but have no additional message."

/-- The model's behaviour for one turn, as seen by the orchestrator: the
contents of the successive `stop_reason == "tool_use"` responses, then the
terminal outcome — a final response content, or an API exception. -/
structure Script where
  rounds : List (List ContentBlock)
  terminal : Except String (List ContentBlock)

/-- Execute every tool-use block of one response in order, threading the
file system, and collect the tool results. -/
def runTools (blocks : List ContentBlock) (allowed : Option (List String))
    (git : Nat → GitData) (fs : FS) : List ToolResult × FS :=
  blocks.foldl (fun acc b =>
    match b with
    | .text _ => acc
    | .toolUse id call =>
      let r := execute_tool call allowed git acc.2
      (acc.1 ++ [{ tool_use_id := id, content := r.1 }], r.2)) ([], fs)

/-- The tool-use loop of `ask_claude`: for each tool-use response, execute
its tools, append the assistant message and the tool results to the
outbound list, and re-call the model; stop at the terminal outcome. -/
def runLoop (allowed : Option (List String)) (git : Nat → GitData) :
    List (List ContentBlock) → Except String (List ContentBlock) → FS → List Message →
    Except String (List ContentBlock) × FS × List Message
  | [], terminal, fs, out => (terminal, fs, out)
  | content :: rest, terminal, fs, out =>
    let r := runTools content allowed git fs
    runLoop allowed git rest terminal r.2
      (out ++ [{ role := "assistant", content := .blocks content },
               { role := "user", content := .results r.1 }])

/-- Extraction of the final reply: the first content block carrying a
`text` attribute. -/
def extractText (content : List ContentBlock) : Option String :=
  content.findSome? (fun b => match b with | .text s => some s | _ => none)

/-- The trim applied after appending the assistant reply:
`messages[-40:]` when the length exceeds 40. -/
def trimTo40 (msgs : List Message) : List Message :=
  if 40 < msgs.length then msgs.drop (msgs.length - 40) else msgs

/-- Everything observable about one `ask_claude` turn: the reply handed
back to Slack, the session store, the file system, the system string and
context message that were sent, and the outbound message list. -/
structure TurnResult where
  reply : String
  store : Store
  fs : FS
  sysUsed : String
  ctxMsg : String
  outbound : List Message

/-- `ask_claude(user_message, channel_id)` from `bot.py`: fetch the
session, load the visible documents, build the context message (full blob
only when the session is empty), append the user message to the session,
run the tool-use loop on a copy of the messages, then on success extract
the reply, append it to the session and trim to 40; an exception from the
`try` block is converted to a user-visible error string. -/
def ask_claude (access : List (String × List String)) (docEnv : DocEnv)
    (git : Nat → GitData) (fs : FS) (st : Store) (now : Nat) (script : Script)
    (user_message channel_id : String) : TurnResult :=
  let gs := get_session st channel_id now
  let session := gs.1
  let allowed := get_allowed_dirs access channel_id
  let project_context := get_all_markdown_files allowed docEnv
  let context_message :=
    if session.messages = [] then firstTurnContext project_context user_message
    else laterTurnContext user_message
  let userMsg : Message := { role := "user", content := .text context_message }
  let sessionMsgs1 := session.messages ++ [userMsg]
  let st2 := storeSet gs.2 channel_id { messages := sessionMsgs1, last_activity := now }
  let sys := systemWithContext project_context
  let lp := runLoop allowed git script.rounds script.terminal fs sessionMsgs1
  let finish : String × Store :=
    match lp.1 with
    | .error e => ("Sorry, I encountered an error: " ++ e, st2)
    | .ok finalContent =>
      let response_text := (extractText finalContent).getD fallbackReply
      let sessionMsgs2 := sessionMsgs1 ++ [{ role := "assistant", content := .text response_text }]
      (response_text,
        storeSet st2 channel_id { messages := trimTo40 sessionMsgs2, last_activity := now })
  { reply := finish.1, store := finish.2, fs := lp.2.1,
    sysUsed := sys, ctxMsg := context_message, outbound := lp.2.2 }

/-- An environment with no markdown files anywhere. -/
def emptyDocEnv : DocEnv := { rootFiles := [], projects := [] }

/-- Git oracle for a repository with no commits in range. -/
def noGit : Nat → GitData :=
  fun _ => { logRc := 0, logOut := "", logErr := "", countRc := 0, countOut := "",
             filesOut := "", exn := none }

/-- The initial empty `SESSIONS` store. -/
def emptyStore : Store := fun _ => none

/-- A turn in which the model call raises an API exception immediately. -/
def errScript : Script := { rounds := [], terminal := Except.error "boom" }

/-- Session store reached after `n` consecutive turns that all end in a
model-call exception, on channel `C`, all at time 1000. -/
def c3Store : Nat → Store
  | 0 => emptyStore
  | n + 1 => (ask_claude [] emptyDocEnv noGit [] (c3Store n) 1000 errScript "hi" "C").store

/-- Number of messages stored for channel `C` after `n` failed turns. -/
def c3Len (n : Nat) : Nat :=
  match c3Store n "C" with
  | none => 0
  | some s => s.messages.length

/-- A turn with one tool-use round (an edit of `a.md`) followed by a
final text response. -/
def okScript : Script :=
  { rounds := [[ContentBlock.toolUse "t1" (ToolCall.editFile "a.md" "x" "y")]],
    terminal := Except.ok [ContentBlock.text "done"] }

/-- A file system with one project file and one root-level file, used to
exhibit the `..` traversal of the `edit_file` access check. -/
def c7fs : FS :=
  [(["project_alpha", "todo.md"], "todo list"), (["README.md"], "Old intro text")]

/-- A content environment whose only root-level markdown file is
`CLAUDE.md`. -/
def c6env : DocEnv :=
  { rootFiles := [{ fname := "CLAUDE.md", res := Except.ok "bot memory notes" }], projects := [] }

/-- Characterisation of `replaceFirst`: when `f` occurs in `s`, the result
splits `s` at the leftmost occurrence of `f` and substitutes `r` there,
leaving everything after that occurrence (hence all later occurrences)
intact. -/
theorem replaceFirst_spec (f r s : List Char) (h : containsSub s f = true) :
    ∃ pre suf : List Char, s = pre ++ f ++ suf ∧
      replaceFirst s f r = pre ++ r ++ suf ∧
      ∀ pre' suf' : List Char, s = pre' ++ f ++ suf' → pre.length ≤ pre'.length := by
  induction s with
  | nil =>
    simp only [containsSub] at h
    have hf : f = [] := List.prefix_nil.mp (List.isPrefixOf_iff_prefix.mp h)
    subst hf
    exact ⟨[], [], by simp, by simp [replaceFirst], fun pre' suf' _ => by simp⟩
  | cons c rest ih =>
    by_cases hp : f.isPrefixOf (c :: rest)
    · obtain ⟨t, ht⟩ := List.isPrefixOf_iff_prefix.mp hp
      refine ⟨[], t, by simp [← ht], ?_, fun pre' suf' _ => Nat.zero_le _⟩
      simp only [replaceFirst, if_pos hp]
      rw [← ht, List.drop_left]
      simp
    · have hpb : f.isPrefixOf (c :: rest) = false := by
        simp only [Bool.not_eq_true] at hp
        exact hp
      have h2 : containsSub rest f = true := by
        simpa [containsSub, hpb] using h
      obtain ⟨pre, suf, h1, hrepl, h3⟩ := ih h2
      refine ⟨c :: pre, suf, by simp [h1], ?_, ?_⟩
      · simp only [replaceFirst, if_neg hp]
        simp [hrepl]
      · intro pre' suf' hsplit
        cases pre' with
        | nil =>
          exact absurd (List.isPrefixOf_iff_prefix.mpr ⟨suf', by simpa using hsplit.symm⟩) hp
        | cons d pre'' =>
          simp only [List.cons_append, List.cons.injEq] at hsplit
          simpa using Nat.succ_le_succ (h3 pre'' suf' hsplit.2)

/-- C1: `edit_file` performs its checks in order — access first (denial
message mentioning the allowed set), then existence, then the `.md`
extension, then presence of `find_text` — and every one of these error
outcomes returns the appropriate error text and leaves the file system
unchanged. -/
theorem c1_edit_file_error_order (fp ft rt : String) (allowed : Option (List String)) (fs : FS) :
    (∀ dirs, allowed = some dirs → deniedFor allowed fp = true →
      edit_file fp ft rt allowed fs = (accessDeniedMsg (topLevelDir fp) dirs, fs)) ∧
    (deniedFor allowed fp = false → fsGet fs (resolveSegs fp) = none →
      edit_file fp ft rt allowed fs = (fileNotFoundMsg fp, fs)) ∧
    (∀ content, deniedFor allowed fp = false → fsGet fs (resolveSegs fp) = some content →
      pySuffix (pathName fp) ≠ ".md" →
      edit_file fp ft rt allowed fs = (mdOnlyMsg, fs)) ∧
    (∀ content, deniedFor allowed fp = false → fsGet fs (resolveSegs fp) = some content →
      pySuffix (pathName fp) = ".md" → containsStr content ft = false →
      edit_file fp ft rt allowed fs = (textNotFoundMsg fp, fs)) := by
  refine ⟨?_, ?_, ?_, ?_⟩
  · intro dirs hd hden
    subst hd
    simp [edit_file, hden]
  · intro hden hget
    cases hall : allowed with
    | none => simp [edit_file, editBody, hget]
    | some dirs =>
      rw [hall] at hden
      simp [edit_file, hden, editBody, hget]
  · intro content hden hget hmd
    cases hall : allowed with
    | none => simp [edit_file, editBody, hget, hmd]
    | some dirs =>
      rw [hall] at hden
      simp [edit_file, hden, editBody, hget, hmd]
  · intro content hden hget hmd hfind
    cases hall : allowed with
    | none => simp [edit_file, editBody, hget, hmd, hfind]
    | some dirs =>
      rw [hall] at hden
      simp [edit_file, hden, editBody, hget, hmd, hfind]

/-- C1 witness: under scope `{project_alpha}` a path into `project_beta`
is denied (even though the file also does not exist), with the file system
unchanged. -/
theorem c1_edit_file_error_order_witness :
    edit_file "project_beta/x.md" "a" "b" (some ["project_alpha"]) [] =
      (accessDeniedMsg (topLevelDir "project_beta/x.md") ["project_alpha"], []) :=
  (c1_edit_file_error_order "project_beta/x.md" "a" "b" (some ["project_alpha"]) []).1
    ["project_alpha"] rfl (by decide)

/-- C2: when every check passes, `edit_file` reports success naming the
path and writes back the content with exactly the first occurrence of
`find_text` replaced by `replace_text`: the content splits at the leftmost
occurrence, the replacement happens there, and the entire remainder
(hence all later occurrences) is preserved verbatim. -/
theorem c2_edit_file_replaces_first_occurrence (fp ft rt : String)
    (allowed : Option (List String)) (fs : FS) (content : String)
    (hden : deniedFor allowed fp = false)
    (hget : fsGet fs (resolveSegs fp) = some content)
    (hmd : pySuffix (pathName fp) = ".md")
    (hfind : containsStr content ft = true) :
    edit_file fp ft rt allowed fs =
      (updatedMsg fp, fsSet fs (resolveSegs fp) (replaceFirstStr content ft rt)) ∧
    ∃ pre suf : List Char, content.data = pre ++ ft.data ++ suf ∧
      (replaceFirstStr content ft rt).data = pre ++ rt.data ++ suf ∧
      ∀ pre' suf' : List Char, content.data = pre' ++ ft.data ++ suf' →
        pre.length ≤ pre'.length := by
  constructor
  · cases hall : allowed with
    | none => simp [edit_file, editBody, hget, hmd, hfind]
    | some dirs =>
      rw [hall] at hden
      simp [edit_file, hden, editBody, hget, hmd, hfind]
  · exact replaceFirst_spec ft.data rt.data content.data hfind

/-- C2 witness: content `A..A`, find `A`, replace `B` succeeds and yields
`B..A` — only the first occurrence is replaced. -/
theorem c2_edit_file_replaces_first_occurrence_witness :
    edit_file "notes.md" "A" "B" none [(["notes.md"], "A..A")] =
      (updatedMsg "notes.md",
        fsSet [(["notes.md"], "A..A")] (resolveSegs "notes.md") (replaceFirstStr "A..A" "A" "B")) ∧
    replaceFirstStr "A..A" "A" "B" = "B..A" :=
  ⟨(c2_edit_file_replaces_first_occurrence "notes.md" "A" "B" none
      [(["notes.md"], "A..A")] "A..A" (by decide) (by decide) (by decide) (by decide)).1,
    by decide⟩

/-- C4: a session accessed strictly beyond 30 minutes of inactivity is
replaced by a fresh empty session; accessed at or before exactly 30
minutes, it keeps its messages and only its last-activity timestamp is
refreshed to `now`. -/
theorem c4_session_expiry (st : Store) (cid : String) (now : Nat) (s : Session)
    (h : st cid = some s) :
    (SESSION_TIMEOUT < now - s.last_activity →
      (get_session st cid now).1 = { messages := [], last_activity := now }) ∧
    (now - s.last_activity ≤ SESSION_TIMEOUT →
      (get_session st cid now).1 = { messages := s.messages, last_activity := now }) := by
  constructor
  · intro hexp
    simp [get_session, sweepExpired, h, hexp]
  · intro hfresh
    have hnot : ¬ SESSION_TIMEOUT < now - s.last_activity := Nat.not_lt.mpr hfresh
    simp [get_session, sweepExpired, h, hnot]

/-- C4 witness: a session idle for 1801 seconds is reset to empty; one
idle for exactly 1800 seconds keeps its message and gets `now` as its
timestamp. -/
theorem c4_session_expiry_witness :
    (get_session (fun q => if q = "C" then
        some { messages := [{ role := "user", content := .text "old" }], last_activity := 0 }
      else none) "C" 1801).1 = { messages := [], last_activity := 1801 } ∧
    (get_session (fun q => if q = "C" then
        some { messages := [{ role := "user", content := .text "old" }], last_activity := 0 }
      else none) "C" 1800).1 =
      { messages := [{ role := "user", content := .text "old" }], last_activity := 1800 } :=
  ⟨(c4_session_expiry _ "C" 1801
      { messages := [{ role := "user", content := .text "old" }], last_activity := 0 }
      (by decide)).1 (by decide),
   (c4_session_expiry _ "C" 1800
      { messages := [{ role := "user", content := .text "old" }], last_activity := 0 }
      (by decide)).2 (by decide)⟩

/-- C7: the access check of `edit_file` looks only at the first
`/`-separated segment, so `project_alpha/../README.md` passes the check
for scope `{project_alpha}` even though it resolves to the root-level
`README.md`, which lies outside every allowed partition — and the call
mutates that outside file instead of being denied. -/
theorem c7_access_check_traversal :
    topLevelDir "project_alpha/../README.md" = some "project_alpha" ∧
    deniedFor (some ["project_alpha"]) "project_alpha/../README.md" = false ∧
    resolveSegs "project_alpha/../README.md" = ["README.md"] ∧
    ((resolveSegs "project_alpha/../README.md").headD "") ∉ (["project_alpha"] : List String) ∧
    edit_file "project_alpha/../README.md" "Old" "New" (some ["project_alpha"]) c7fs =
      (updatedMsg "project_alpha/../README.md",
        [(["project_alpha", "todo.md"], "todo list"), (["README.md"], "New intro text")]) := by
  refine ⟨by decide, by decide, by decide, by decide, by decide⟩

/-- C9: `get_recent_updates` is a total function returning text: an
unexpected exception is rendered as an error string, a failing `git log`
returns its stderr as text, an empty log returns a no-commits message
naming the day count, and otherwise the summary contains the commit
count, the number of distinct files touched, and the raw log. -/
theorem c9_recent_updates_graceful (days : Nat) (git : GitData) :
    (∀ e, git.exn = some e →
      get_recent_updates days git = "Error getting git history: " ++ e) ∧
    (git.exn = none → git.logRc ≠ 0 →
      get_recent_updates days git = "Error running git log: " ++ git.logErr) ∧
    (git.exn = none → git.logRc = 0 → pyStrip git.logOut = "" →
      get_recent_updates days git = "No commits found in the last " ++ toString days ++ " days.") ∧
    (git.exn = none → git.logRc = 0 → pyStrip git.logOut ≠ "" →
      get_recent_updates days git =
        "Git history for the last " ++ toString days ++ " days:\n\nTotal commits: " ++
          (if git.countRc = 0 then pyStrip git.countOut else "unknown") ++
          "\nFiles modified: " ++
          toString (((pySplit (pyStrip git.filesOut) '\n').filter (fun f => f ≠ "")).dedup.length) ++
          "\n\nCommits:\n" ++ git.logOut) := by
  refine ⟨?_, ?_, ?_, ?_⟩
  · intro e he
    simp [get_recent_updates, he]
  · intro he hrc
    simp [get_recent_updates, he, hrc]
  · intro he hrc hempty
    simp [get_recent_updates, he, hrc, hempty]
  · intro he hrc hne
    simp [get_recent_updates, he, hrc, hne]

/-- C9 witness: a repository with zero commits in range yields the
no-commits message for 7 days, not an exception. -/
theorem c9_recent_updates_graceful_witness :
    get_recent_updates 7 (noGit 7) = "No commits found in the last 7 days." :=
  (c9_recent_updates_graceful 7 (noGit 7)).2.2.1 (by decide) (by decide) (by decide)

/-- The tool-use loop hands the script's terminal outcome through
unchanged: a model exception at any round surfaces as the loop's result. -/
theorem runLoop_fst (allowed : Option (List String)) (git : Nat → GitData)
    (rounds : List (List ContentBlock)) (terminal : Except String (List ContentBlock))
    (fs : FS) (out : List Message) :
    (runLoop allowed git rounds terminal fs out).1 = terminal := by
  induction rounds generalizing fs out with
  | nil => rfl
  | cons content rest ih => simp only [runLoop]; exact ih _ _

/-- Each round of the tool-use loop appends exactly two messages (the raw
assistant response and the collected tool results) to the outbound list. -/
theorem runLoop_outbound_length (allowed : Option (List String)) (git : Nat → GitData)
    (rounds : List (List ContentBlock)) (terminal : Except String (List ContentBlock))
    (fs : FS) (out : List Message) :
    (runLoop allowed git rounds terminal fs out).2.2.length = out.length + 2 * rounds.length := by
  induction rounds generalizing fs out with
  | nil => rfl
  | cons content rest ih =>
    simp only [runLoop]
    rw [ih]
    simp
    omega

/-- C5: an exception raised while the turn is being driven (the model
call, the tool-use loop, reply extraction — the region inside the `try`)
is converted into a user-visible error string, so the caller still gets a
text reply; the steps before the `try` (document load, session fetch,
message construction) are total, so no exception propagates from a turn. -/
theorem c5_turn_errors_become_text (access : List (String × List String)) (docEnv : DocEnv)
    (git : Nat → GitData) (fs : FS) (st : Store) (now : Nat) (script : Script)
    (user cid : String) (e : String) (hterm : script.terminal = Except.error e) :
    (ask_claude access docEnv git fs st now script user cid).reply =
      "Sorry, I encountered an error: " ++ e := by
  simp only [ask_claude, runLoop_fst, hterm]

/-- C5 witness: a turn whose first model call raises `boom` replies with
the corresponding error text. -/
theorem c5_turn_errors_become_text_witness :
    (ask_claude [] emptyDocEnv noGit [] emptyStore 0 errScript "hi" "C").reply =
      "Sorry, I encountered an error: boom" :=
  c5_turn_errors_become_text [] emptyDocEnv noGit [] emptyStore 0 errScript "hi" "C" "boom" rfl

/-- C8: the constructed outbound user message embeds the full document
blob when the fetched session has no prior messages and the short
placeholder otherwise, and in both cases the system string sent to the
model is the fixed instructions plus the freshly rendered current files. -/
theorem c8_context_message_and_system (access : List (String × List String)) (docEnv : DocEnv)
    (git : Nat → GitData) (fs : FS) (st : Store) (now : Nat) (script : Script)
    (user cid : String) :
    ((get_session st cid now).1.messages = [] →
      (ask_claude access docEnv git fs st now script user cid).ctxMsg =
        firstTurnContext (get_all_markdown_files (get_allowed_dirs access cid) docEnv) user) ∧
    ((get_session st cid now).1.messages ≠ [] →
      (ask_claude access docEnv git fs st now script user cid).ctxMsg =
        laterTurnContext user) ∧
    (ask_claude access docEnv git fs st now script user cid).sysUsed =
      systemWithContext (get_all_markdown_files (get_allowed_dirs access cid) docEnv) := by
  refine ⟨?_, ?_, ?_⟩
  · intro hempty
    simp [ask_claude, hempty]
  · intro hne
    simp only [ask_claude, if_neg hne]
  · simp only [ask_claude]

/-- C8 witness: on a fresh (empty) session the context message is the
full-blob template and the system string carries the rendered files. -/
theorem c8_context_message_and_system_witness :
    (ask_claude [] emptyDocEnv noGit [] emptyStore 0 errScript "hi" "C").ctxMsg =
      firstTurnContext (get_all_markdown_files (get_allowed_dirs [] "C") emptyDocEnv) "hi" ∧
    (ask_claude [] emptyDocEnv noGit [] emptyStore 0 errScript "hi" "C").sysUsed =
      systemWithContext (get_all_markdown_files (get_allowed_dirs [] "C") emptyDocEnv) :=
  ⟨(c8_context_message_and_system [] emptyDocEnv noGit [] emptyStore 0 errScript "hi" "C").1
      (by decide),
   (c8_context_message_and_system [] emptyDocEnv noGit [] emptyStore 0 errScript "hi" "C").2.2⟩

/-- C10: a successful turn persists exactly two messages into the session
— the constructed user message and the final plain-text reply — no matter
how many tool rounds occurred; the intermediate assistant/tool-result
pairs go only to the outbound copy (two per round). -/
theorem c10_session_gets_two_messages (access : List (String × List String)) (docEnv : DocEnv)
    (git : Nat → GitData) (fs : FS) (st : Store) (now : Nat) (script : Script)
    (user cid : String) (fc : List ContentBlock) (hterm : script.terminal = Except.ok fc) :
    (ask_claude access docEnv git fs st now script user cid).store cid =
      some (Session.mk
        (trimTo40 ((get_session st cid now).1.messages ++
          [Message.mk "user"
              (MsgContent.text (ask_claude access docEnv git fs st now script user cid).ctxMsg),
           Message.mk "assistant" (MsgContent.text ((extractText fc).getD fallbackReply))]))
        now) ∧
    (ask_claude access docEnv git fs st now script user cid).reply =
      (extractText fc).getD fallbackReply ∧
    (ask_claude access docEnv git fs st now script user cid).outbound.length =
      (get_session st cid now).1.messages.length + 1 + 2 * script.rounds.length := by
  refine ⟨?_, ?_, ?_⟩
  · simp only [ask_claude, runLoop_fst, hterm, storeSet, if_pos rfl]
    simp
  · simp only [ask_claude, runLoop_fst, hterm]
  · simp only [ask_claude, runLoop_outbound_length]
    simp

/-- C10 witness: a turn with one tool round persists exactly the user
message and the final reply into the session, while the outbound copy
carries the two extra intermediate messages. -/
theorem c10_session_gets_two_messages_witness :
    (ask_claude [] emptyDocEnv noGit [(["a.md"], "x0x")] emptyStore 5 okScript "hi" "C").store "C" =
      some (Session.mk
        (trimTo40 ((get_session emptyStore "C" 5).1.messages ++
          [Message.mk "user"
              (MsgContent.text
                (ask_claude [] emptyDocEnv noGit [(["a.md"], "x0x")] emptyStore 5 okScript
                    "hi" "C").ctxMsg),
           Message.mk "assistant"
              (MsgContent.text ((extractText [ContentBlock.text "done"]).getD fallbackReply))]))
        5) ∧
    (ask_claude [] emptyDocEnv noGit [(["a.md"], "x0x")] emptyStore 5 okScript "hi" "C").outbound.length =
      (get_session emptyStore "C" 5).1.messages.length + 1 + 2 * okScript.rounds.length :=
  ⟨(c10_session_gets_two_messages [] emptyDocEnv noGit [(["a.md"], "x0x")] emptyStore 5 okScript
      "hi" "C" [ContentBlock.text "done"] rfl).1,
   (c10_session_gets_two_messages [] emptyDocEnv noGit [(["a.md"], "x0x")] emptyStore 5 okScript
      "hi" "C" [ContentBlock.text "done"] rfl).2.2⟩

/-- The trimmed list is a suffix of the original. -/
theorem trimTo40_suffix (l : List Message) : trimTo40 l <:+ l := by
  unfold trimTo40
  split
  · exact List.drop_suffix _ _
  · exact List.suffix_refl _

/-- The trimmed list keeps the last `min (length l) 40` messages. -/
theorem trimTo40_length (l : List Message) : (trimTo40 l).length = min l.length 40 := by
  unfold trimTo40
  split
  · rw [List.length_drop]
    omega
  · omega

/-- C3 counterexample: after 41 consecutive orchestrator turns that each
end in a model-call exception (starting from an empty store), the stored
message count for the channel is 41, exceeding the cap of 40 — the code
appends the user message before the `try` and trims only on success. -/
theorem c3_counterexample_cap_exceeded : 40 < c3Len 41 := by decide

/-- C3 (amended): after a turn that completes successfully, given the
session held at most 40 messages beforehand, the stored count is at most
40 and the retained messages are a suffix (the most recently appended, in
original relative order) of the full appended sequence; a turn ending in
an error instead appends the user message without trimming. -/
theorem c3_cap_after_successful_turn (access : List (String × List String)) (docEnv : DocEnv)
    (git : Nat → GitData) (fs : FS) (st : Store) (now : Nat) (script : Script)
    (user cid : String) (fc : List ContentBlock) (hterm : script.terminal = Except.ok fc) :
    ∃ s : Session, (ask_claude access docEnv git fs st now script user cid).store cid = some s ∧
      s.messages.length ≤ 40 ∧
      s.messages <:+ ((get_session st cid now).1.messages ++
        [Message.mk "user"
            (MsgContent.text (ask_claude access docEnv git fs st now script user cid).ctxMsg),
         Message.mk "assistant" (MsgContent.text ((extractText fc).getD fallbackReply))]) := by
  refine ⟨Session.mk (trimTo40 ((get_session st cid now).1.messages ++
      [Message.mk "user"
          (MsgContent.text (ask_claude access docEnv git fs st now script user cid).ctxMsg),
       Message.mk "assistant" (MsgContent.text ((extractText fc).getD fallbackReply))])) now,
    ?_, ?_, ?_⟩
  · simp only [ask_claude, runLoop_fst, hterm, storeSet, if_pos rfl]
    simp
  · rw [trimTo40_length]
    exact Nat.min_le_right _ _
  · exact trimTo40_suffix _

/-- C3 amended witness: a successful turn on a fresh session stores two
messages, within the cap. -/
theorem c3_cap_after_successful_turn_witness :
    ∃ s : Session,
      (ask_claude [] emptyDocEnv noGit [(["a.md"], "x0x")] emptyStore 5 okScript "hi" "C").store
          "C" = some s ∧
      s.messages.length ≤ 40 ∧
      s.messages <:+ ((get_session emptyStore "C" 5).1.messages ++
        [Message.mk "user"
            (MsgContent.text
              (ask_claude [] emptyDocEnv noGit [(["a.md"], "x0x")] emptyStore 5 okScript
                  "hi" "C").ctxMsg),
         Message.mk "assistant"
            (MsgContent.text ((extractText [ContentBlock.text "done"]).getD fallbackReply))]) :=
  c3_cap_after_successful_turn [] emptyDocEnv noGit [(["a.md"], "x0x")] emptyStore 5 okScript
    "hi" "C" [ContentBlock.text "done"] rfl

/-- C6 counterexample: an unrestricted scope does NOT include every
root-level document — the code skips `CLAUDE.md`, so an environment whose
only root document is `CLAUDE.md` yields the empty-result sentinel even
though a root-level document exists. -/
theorem c6_counterexample_claude_md_excluded :
    c6env.rootFiles.length = 1 ∧
    get_all_markdown_files none c6env = "No project files found." ∧
    ∀ f ∈ c6env.rootFiles, renderRoot f ∉ sectionsOf none c6env := by
  refine ⟨rfl, by decide, ?_⟩
  intro f hf
  simp [c6env] at hf
  subst hf
  decide

/-- C6 (amended): under an unrestricted scope the visible sections
include every root-level document except `CLAUDE.md` and every document
under every existing configured partition; under a restricted scope every
section comes from an allowed, existing partition and the root documents
play no part; when no section remains the sentinel text is returned,
otherwise the sections joined by the separator. -/
theorem c6_visible_documents (env : DocEnv) (l : List String) :
    (∀ f ∈ env.rootFiles, f.fname ≠ "CLAUDE.md" → renderRoot f ∈ sectionsOf none env) ∧
    (∀ p ∈ env.projects, p.dirExists = true →
      ∀ fl ∈ p.files, renderProj p fl ∈ sectionsOf none env) ∧
    (∀ sec ∈ sectionsOf (some l) env, ∃ p, p ∈ env.projects ∧ p.dirName ∈ l ∧
      p.dirExists = true ∧ ∃ fl, fl ∈ p.files ∧ sec = renderProj p fl) ∧
    (∀ rf : List RootFile,
      sectionsOf (some l) { env with rootFiles := rf } = sectionsOf (some l) env) ∧
    (∀ al : Option (List String), sectionsOf al env = [] →
      get_all_markdown_files al env = "No project files found.") ∧
    (∀ al : Option (List String), sectionsOf al env ≠ [] →
      get_all_markdown_files al env =
        String.intercalate "\n\n---\n\n" (sectionsOf al env)) := by
  refine ⟨?_, ?_, ?_, ?_, ?_, ?_⟩
  · intro f hf hne
    apply List.mem_append_left
    exact List.mem_map_of_mem _ (List.mem_filter.mpr ⟨hf, decide_eq_true hne⟩)
  · intro p hp hex fl hfl
    apply List.mem_append_right
    rw [List.mem_flatten]
    refine ⟨p.files.map (renderProj p), ?_, List.mem_map_of_mem _ hfl⟩
    have : (if p.dirExists then p.files.map (renderProj p) else []) =
        p.files.map (renderProj p) := by rw [if_pos hex]
    rw [← this]
    exact List.mem_map_of_mem _ hp
  · intro sec hsec
    simp only [sectionsOf, List.nil_append, List.mem_flatten, List.mem_map] at hsec
    obtain ⟨ls, ⟨p, hp, hls⟩, hsecls⟩ := hsec
    subst hls
    by_cases hmem : p.dirName ∈ l
    · rw [if_pos hmem] at hsecls
      by_cases hex : p.dirExists
      · rw [if_pos hex] at hsecls
        obtain ⟨fl, hfl, hrend⟩ := List.mem_map.mp hsecls
        exact ⟨p, hp, hmem, hex, fl, hfl, hrend.symm⟩
      · rw [if_neg hex] at hsecls
        exact absurd hsecls (List.not_mem_nil _)
    · rw [if_neg hmem] at hsecls
      exact absurd hsecls (List.not_mem_nil _)
  · intro rf
    simp [sectionsOf]
  · intro al hempty
    rw [get_all_markdown_files, if_pos (by rw [hempty]; rfl)]
  · intro al hne
    rw [get_all_markdown_files, if_neg ?_]
    rw [List.isEmpty_iff]
    exact hne

/-- C6 amended witness: a non-`CLAUDE.md` root document is visible under
the unrestricted scope. -/
theorem c6_visible_documents_witness :
    renderRoot (RootFile.mk "README.md" (Except.ok "hello")) ∈
      sectionsOf none (DocEnv.mk [RootFile.mk "README.md" (Except.ok "hello")] []) :=
  (c6_visible_documents (DocEnv.mk [RootFile.mk "README.md" (Except.ok "hello")] []) []).1
    (RootFile.mk "README.md" (Except.ok "hello")) (by simp) (by decide)
